import Mathlib

/-!
Verification development for the FoilSkyBugs ADS-B data logger.

The Python sources under `src/foilskybugs` are shallowly embedded here:

* Python strings are modelled as `List ℕ` of ASCII code points (the code
  only ever manipulates ASCII identifiers, callsigns and format strings);
  `str.strip`, `str.upper` and the `int(s, 16)` literal parser are embedded
  for the ASCII range.
* Python floats (coordinates, speeds, timestamps) are modelled as `ℚ`;
  `datetime` values are modelled as rational epoch seconds, and
  `isoformat` serialization is treated as the identity on that value.
* `None` becomes `Option.none`; Python truthiness of a value `v`
  (`if v:` / `v and w`) is embedded per type: a string is falsy iff empty,
  a float iff it equals `0`, a `datetime` is always truthy.
* Database tables are lists of row structures; SQLAlchemy queries are the
  corresponding filters, sorts and takes.  I/O (file writes, sessions,
  logging) is side-effect free in the model: the model returns the value
  the Python function returns together with the content it would write.
-/

/-- Strings are lists of ASCII code points. -/
abbrev Str := List ℕ

/-- Helper turning a readable character list into its code-point model. -/
def chars (cs : List Char) : Str := cs.map Char.toNat

/-- Embedding of Python `str.isspace` characters in the ASCII range
(space, tab, newline, vertical tab, form feed, carriage return);
these are exactly the ASCII characters `str.strip` removes. -/
def pyIsSpace (n : ℕ) : Bool :=
  decide (n = 32 ∨ n = 9 ∨ n = 10 ∨ n = 11 ∨ n = 12 ∨ n = 13)

/-- Embedding of `str.upper` on a single ASCII code point. -/
def pyToUpper (n : ℕ) : ℕ :=
  if 97 ≤ n ∧ n ≤ 122 then n - 32 else n

/-- Embedding of `str.upper` (ASCII). -/
def pyUpper (s : Str) : Str := s.map pyToUpper

/-- Left strip, the first half of `str.strip`. -/
def pyLStrip (s : Str) : Str := s.dropWhile pyIsSpace

/-- Right strip, the second half of `str.strip`. -/
def pyRStrip (s : Str) : Str := (s.reverse.dropWhile pyIsSpace).reverse

/-- Embedding of `str.strip` (ASCII whitespace from both ends). -/
def pyStrip (s : Str) : Str := pyRStrip (pyLStrip s)

/-- Hexadecimal digit in the sense of `int(s, 16)`: `0-9`, `A-F`, `a-f`. -/
def pyIsHexDigit (n : ℕ) : Bool :=
  decide (48 ≤ n ∧ n ≤ 57) || decide (65 ≤ n ∧ n ≤ 70) ||
    decide (97 ≤ n ∧ n ≤ 102)

/-- Uppercase hexadecimal digit: `0-9`, `A-F`. -/
def pyIsUpperHexDigit (n : ℕ) : Bool :=
  decide (48 ≤ n ∧ n ≤ 57) || decide (65 ≤ n ∧ n ≤ 70)

/-- Tail of the digit part of a hexadecimal `int` literal: single
underscores are permitted between digits (PEP 515), never doubled,
leading or trailing.  Code point 95 is the underscore. -/
def hexTail : Str → Bool
  | [] => true
  | n :: rest =>
    if n = 95 then
      match rest with
      | [] => false
      | m :: rest2 => pyIsHexDigit m && hexTail rest2
    else
      pyIsHexDigit n && hexTail rest

/-- Digit part of a hexadecimal `int` literal: at least one digit,
underscores only between digits. -/
def hexBody (s : Str) : Bool :=
  match s with
  | [] => false
  | n :: rest => pyIsHexDigit n && hexTail rest

/-- Hexadecimal `int` literal after the optional sign: an optional
`0x`/`0X` base marker (code points 48, 120, 88), optionally followed by
one underscore, then the digit part. -/
def hexAfterSign (s : Str) : Bool :=
  match s with
  | a :: x :: rest =>
    if a = 48 ∧ (x = 120 ∨ x = 88) then
      match rest with
      | u :: rest2 => if u = 95 then hexBody rest2 else hexBody rest
      | [] => hexBody rest
    else hexBody s
  | _ => hexBody s

/-- Embedding of whether `int(s, 16)` succeeds on a string without
surrounding whitespace (the callers below always strip first): an
optional sign (43 is `+`, 45 is `-`) followed by a base-16 literal. -/
def pyIntHex16Ok (s : Str) : Bool :=
  match s with
  | a :: rest => if a = 43 ∨ a = 45 then hexAfterSign rest else hexAfterSign (a :: rest)
  | [] => hexAfterSign []

/-- Embedding of `validate_icao` from `utils/data_utils.py`: `None` and
the empty string are rejected, the input is stripped and uppercased,
must have exactly 6 characters, and must be accepted by `int(·, 16)`. -/
def validate_icao : Option Str → Bool
  | none => false
  | some s =>
    if s = [] then false
    else
      let t := pyUpper (pyStrip s)
      if t.length = 6 then pyIntHex16Ok t else false

/-- Padding step of `normalize_icao` (`utils/data_utils.py` lines
170-172): when the stripped, uppercased identifier is shorter than 6 and
its zero-padded form passes `validate_icao`, it is replaced by the padded
form; the padding character is `0` (code point 48). -/
def normalize_pad (t : Str) : Str :=
  if t.length < 6 ∧
      validate_icao (some (List.replicate (6 - t.length) 48 ++ t)) = true then
    List.replicate (6 - t.length) 48 ++ t
  else t

/-- Embedding of `normalize_icao` from `utils/data_utils.py`: empty input
is returned as the empty string; otherwise the input is stripped and
uppercased, conditionally zero-padded by `normalize_pad`, and the result
is returned when it passes `validate_icao`, the empty string otherwise. -/
def normalize_icao (s : Str) : Str :=
  if s = [] then []
  else
    if validate_icao (some (normalize_pad (pyUpper (pyStrip s)))) = true then
      normalize_pad (pyUpper (pyStrip s))
    else []

/-! Embedding of the `Aircraft` data model and the decoder
(`core/adsb_decoder.py`). -/

/-- Embedding of the `Aircraft` dataclass from `core/adsb_decoder.py`.
Optional floats are `Option ℚ`, optional ints `Option ℤ`, strings `Str`.
The timestamp is an `Option` as in the dataclass declaration, although
`__post_init__` fills it with the current time on construction. -/
structure Aircraft where
  icao : Str
  callsign : Option Str := none
  latitude : Option ℚ := none
  longitude : Option ℚ := none
  altitude : Option ℤ := none
  speed : Option ℚ := none
  heading : Option ℚ := none
  vertical_rate : Option ℤ := none
  squawk : Option Str := none
  timestamp : Option ℚ := none
deriving DecidableEq, Repr

/-- Embedding of `Aircraft.is_valid`: both coordinates present, latitude
in `[-90, 90]` and longitude in `[-180, 180]`. -/
def Aircraft.is_valid (a : Aircraft) : Bool :=
  match a.latitude, a.longitude with
  | some la, some lo => decide (-90 ≤ la ∧ la ≤ 90 ∧ -180 ≤ lo ∧ lo ≤ 180)
  | _, _ => false

/-- One entry of the parsed `data['aircraft']` array handed to
`process_dump1090_json`; each field is the result of `ac_data.get(...)`. -/
structure RawAC where
  hex : Option Str := none
  flight : Option Str := none
  lat : Option ℚ := none
  lon : Option ℚ := none
  alt_baro : Option ℤ := none
  gs : Option ℚ := none
  track : Option ℚ := none
  baro_rate : Option ℤ := none
  squawk : Option Str := none
deriving DecidableEq, Repr

/-- The `Aircraft(...)` construction inside `process_dump1090_json`:
the identifier is uppercased, the callsign is `ac_data.get('flight', '')`
stripped (always a string, possibly empty), every other field is passed
through, and `__post_init__` stamps the current time. -/
def mkDumpAircraft (h : Str) (r : RawAC) (now : ℚ) : Aircraft :=
  { icao := pyUpper h,
    callsign := some (pyStrip (r.flight.getD [])),
    latitude := r.lat,
    longitude := r.lon,
    altitude := r.alt_baro,
    speed := r.gs,
    heading := r.track,
    vertical_rate := r.baro_rate,
    squawk := r.squawk,
    timestamp := some now }

/-- The decoder's `aircraft_cache` dict, keyed by icao.  Python dict
update: an existing key is overwritten in place, a new key is appended. -/
def dictSet (m : List (Str × Aircraft)) (k : Str) (v : Aircraft) :
    List (Str × Aircraft) :=
  if m.any (fun p => p.1 = k) then
    m.map (fun p => if p.1 = k then (k, v) else p)
  else m ++ [(k, v)]

/-- Embedding of `ADSBDecoder.process_dump1090_json` on an
already-parsed `aircraft` array (the JSON-error path, which returns an
empty list, is outside this pure model).  Records whose `hex` is missing
or empty are skipped; each remaining record is built into an `Aircraft`;
only aircraft passing `is_valid` are returned and cached. -/
def process_dump1090_json (recs : List RawAC)
    (cache : List (Str × Aircraft)) (now : ℚ) :
    List Aircraft × List (Str × Aircraft) :=
  match recs with
  | [] => ([], cache)
  | r :: rs =>
    match r.hex with
    | none => process_dump1090_json rs cache now
    | some h =>
      if h = [] then process_dump1090_json rs cache now
      else
        let a := mkDumpAircraft h r now
        if a.is_valid then
          let rest := process_dump1090_json rs (dictSet cache a.icao a) now
          (a :: rest.1, rest.2)
        else process_dump1090_json rs cache now

/-- Embedding of `ADSBDecoder.cleanup_old_aircraft`.  The age limit is a
`WithTop ℚ` so that `float(inf)` is representable as `⊤`.  An entry with
a timestamp is removed exactly when its age strictly exceeds the limit;
an entry whose timestamp is `None` is never removed (`if aircraft.timestamp`
fails).  The Python function returns `None`, not a count; the model
returns the surviving cache. -/
def cleanup_old_aircraft (cache : List (Str × Aircraft))
    (max_age : WithTop ℚ) (now : ℚ) : List (Str × Aircraft) :=
  cache.filter fun p =>
    match p.2.timestamp with
    | none => true
    | some ts => decide (¬ ((now - ts : ℚ) : WithTop ℚ) > max_age)

/-- Concrete identifier `ABC123`. -/
def icaoABC : Str := chars ['A', 'B', 'C', '1', '2', '3']

/-- A raw dump1090 record with an out-of-range latitude (100) and a valid
longitude (-75). -/
def recBadLat : RawAC :=
  { hex := some (chars ['a', 'b', 'c', '1', '2', '3']),
    lat := some 100, lon := some (-75) }

/-- A raw dump1090 record with only a longitude (a half position). -/
def recHalfPos : RawAC :=
  { hex := some (chars ['a', 'b', 'c', '1', '2', '3']),
    lon := some (-75) }

/-- A raw dump1090 record with a fully valid position (42, -75). -/
def recGoodPos : RawAC :=
  { hex := some (chars ['a', 'b', 'c', '1', '2', '3']),
    lat := some 42, lon := some (-75) }

/-- An aircraft last seen at time 0. -/
def acSeenAt0 : Aircraft := { icao := icaoABC, timestamp := some 0 }

/-- A cache holding one aircraft seen exactly at the current time 0. -/
def cacheSeenAt0 : List (Str × Aircraft) := [(icaoABC, acSeenAt0)]

/-! Embedding of the database layer (`core/database.py`). -/

/-- A row of the `aircraft_positions` table.  The `timestamp` column is
`nullable=False` and is always set on insert, so it is not optional. -/
structure Row where
  icao : Str
  callsign : Option Str
  latitude : Option ℚ
  longitude : Option ℚ
  altitude : Option ℤ
  speed : Option ℚ
  heading : Option ℚ
  vertical_rate : Option ℤ
  squawk : Option Str
  timestamp : ℚ
deriving DecidableEq, Repr

/-- The dictionary built by `get_aircraft_positions` for each row; the
`timestamp` entry models `pos.timestamp.isoformat()` (serialization is
the identity in this model). -/
structure PosDict where
  icao : Str
  callsign : Option Str
  latitude : Option ℚ
  longitude : Option ℚ
  altitude : Option ℤ
  speed : Option ℚ
  heading : Option ℚ
  vertical_rate : Option ℤ
  squawk : Option Str
  timestamp : ℚ
deriving DecidableEq, Repr

/-- The `AircraftPosition(...)` construction in
`store_aircraft_positions`: all fields verbatim, with
`aircraft.timestamp or datetime.now(...)` for the timestamp (a datetime
is always truthy, so the stored time is the aircraft's own timestamp
when present, the current time otherwise). -/
def Aircraft.toRow (a : Aircraft) (now : ℚ) : Row :=
  { icao := a.icao,
    callsign := a.callsign,
    latitude := a.latitude,
    longitude := a.longitude,
    altitude := a.altitude,
    speed := a.speed,
    heading := a.heading,
    vertical_rate := a.vertical_rate,
    squawk := a.squawk,
    timestamp := a.timestamp.getD now }

/-- Embedding of `DatabaseManager.store_aircraft_positions` (the batch
write path): only aircraft passing `is_valid` become rows; the function
returns the count of rows persisted together with the new table
contents.  The exception path (which returns count 0 after a rollback)
is outside this pure model. -/
def store_aircraft_positions (db : List Row) (batch : List Aircraft)
    (now : ℚ) : ℕ × List Row :=
  ((batch.filter (fun a => a.is_valid)).length,
    db ++ (batch.filter (fun a => a.is_valid)).map (fun a => a.toRow now))

/-- The row-to-dict conversion in `get_aircraft_positions`. -/
def rowToDict (r : Row) : PosDict :=
  { icao := r.icao,
    callsign := r.callsign,
    latitude := r.latitude,
    longitude := r.longitude,
    altitude := r.altitude,
    speed := r.speed,
    heading := r.heading,
    vertical_rate := r.vertical_rate,
    squawk := r.squawk,
    timestamp := r.timestamp }

/-- Insertion step of the model of `ORDER BY timestamp DESC`. -/
def insertDesc (r : Row) : List Row → List Row
  | [] => [r]
  | x :: xs =>
    if x.timestamp ≤ r.timestamp then r :: x :: xs else x :: insertDesc r xs

/-- Model of `ORDER BY timestamp DESC` (ties in unspecified order, as in
SQL without a secondary key; insertion sort is one valid refinement). -/
def sortDesc : List Row → List Row
  | [] => []
  | r :: rs => insertDesc r (sortDesc rs)

/-- Embedding of `DatabaseManager.get_aircraft_positions`: optional
filters on icao (`if icao:` — skipped for `None` and for the empty
string), inclusive start/end bounds on the timestamp, order by timestamp
descending, cap at `limit`, convert to dicts.  The exception path (which
returns an empty list) is outside this pure model. -/
def get_aircraft_positions (db : List Row) (icao : Option Str)
    (start_time end_time : Option ℚ) (limit : ℕ) : List PosDict :=
  let q1 := match icao with
    | none => db
    | some i => if i = [] then db else db.filter (fun r => r.icao = i)
  let q2 := match start_time with
    | none => q1
    | some t => q1.filter (fun r => t ≤ r.timestamp)
  let q3 := match end_time with
    | none => q2
    | some t => q2.filter (fun r => r.timestamp ≤ t)
  ((sortDesc q3).take limit).map rowToDict

/-- A fully populated valid aircraft used as a concrete witness input. -/
def acFull : Aircraft :=
  { icao := icaoABC,
    callsign := some (chars ['U', 'A', 'L', '1', '2', '3']),
    latitude := some 42,
    longitude := some (-75),
    altitude := some 35000,
    speed := some 450,
    heading := some 90,
    vertical_rate := some 500,
    squawk := some (chars ['1', '2', '0', '0']),
    timestamp := some 100 }

/-! Embedding of the statistics aggregator
(`DatabaseManager.update_statistics`) and of the `FoilSkyBugs` start/stop
state machine. -/

/-- A row of the `statistics` table (`DailyStatistics`). -/
structure StatRow where
  date : ℚ
  total_aircraft : ℕ
  total_positions : ℕ
  unique_callsigns : ℕ
  avg_altitude : Option ℚ
  max_altitude : Option ℤ
deriving DecidableEq, Repr

/-- The day-window test on a position row used by `update_statistics`:
`start_of_day <= timestamp < start_of_day + 24h` (86400 seconds). -/
def posInDay (startOfDay : ℚ) (r : Row) : Bool :=
  decide (startOfDay ≤ r.timestamp ∧ r.timestamp < startOfDay + 86400)

/-- The day-window test on a statistics row, used by the delete step. -/
def statInDay (startOfDay : ℚ) (r : StatRow) : Bool :=
  decide (startOfDay ≤ r.date ∧ r.date < startOfDay + 86400)

/-- The `Statistics(...)` row computed by `update_statistics` from the
day's position rows: distinct icao count, row count, distinct truthy
callsign count (`if pos.callsign` — `None` and the empty string are
falsy), and average/maximum over truthy altitudes (`if pos.altitude` —
`None` and 0 are falsy). -/
def dailyRow (today : List Row) (startOfDay : ℚ) : StatRow :=
  { date := startOfDay,
    total_aircraft := ((today.map (fun r => r.icao)).dedup).length,
    total_positions := today.length,
    unique_callsigns := ((today.filterMap (fun r =>
      match r.callsign with
      | none => none
      | some c => if c = [] then none else some c)).dedup).length,
    avg_altitude :=
      if (today.filterMap (fun r =>
          match r.altitude with
          | none => none
          | some al => if al = 0 then none else some al)) = [] then none
      else some (((today.filterMap (fun r =>
          match r.altitude with
          | none => none
          | some al => if al = 0 then none else some al)).map
            (fun z => (z : ℚ))).sum /
        ((today.filterMap (fun r =>
          match r.altitude with
          | none => none
          | some al => if al = 0 then none else some al)).length : ℚ)),
    max_altitude := (today.filterMap (fun r =>
      match r.altitude with
      | none => none
      | some al => if al = 0 then none else some al)).max? }

/-- Embedding of `DatabaseManager.update_statistics`, parameterized by
the start of the current UTC day (the Python code derives it from the
wall clock).  When the day has no position rows it returns `True` and
writes nothing; otherwise it deletes every statistics row in the day
window and appends the freshly computed row, returning `True`.  The
exception path (returning `False`) is outside this pure model. -/
def update_statistics (positions : List Row) (stats : List StatRow)
    (startOfDay : ℚ) : Bool × List StatRow :=
  let today := positions.filter (posInDay startOfDay)
  if today = [] then (true, stats)
  else
    (true, stats.filter (fun r => ! statInDay startOfDay r) ++
      [dailyRow today startOfDay])

/-- The `FoilSkyBugs` application state relevant to `start`/`stop`: the
`running` flag (`core/foilskybugs.py`; the background thread handle is
not part of this pure model). -/
structure AppState where
  running : Bool
deriving DecidableEq, Repr

/-- Embedding of `FoilSkyBugs.start`: returns `False` and leaves the
state alone when already running, otherwise sets `running` and reports
`True`. -/
def fsb_start (s : AppState) : Bool × AppState :=
  if s.running then (false, s) else (true, { running := true })

/-- Embedding of `FoilSkyBugs.stop`: returns `False` ("is not running")
and leaves the state alone when already stopped, otherwise clears
`running` (joining the thread with a bounded timeout) and reports
`True`. -/
def fsb_stop (s : AppState) : Bool × AppState :=
  if s.running then (true, { running := false }) else (false, s)

/-! Embedding of the export path (`FoilSkyBugs.export_data`,
`_export_json`, `_export_csv`, `_export_geojson`). -/

/-- The export format argument (compared via `format.lower()` against
the three supported names; anything else is unsupported). -/
inductive Fmt where
  | json
  | csv
  | geojson
  | other
deriving DecidableEq, Repr

/-- Python float truthiness: `None` and `0.0` are falsy. -/
def qTruthy : Option ℚ → Bool
  | none => false
  | some q => decide (q ≠ 0)

/-- A GeoJSON feature built by `_export_geojson`: `coordinates` is
`[longitude, latitude]` and the properties are icao, callsign, altitude,
speed, heading, squawk and timestamp (vertical rate is not exported). -/
structure Feature where
  lon : ℚ
  lat : ℚ
  icao : Str
  callsign : Option Str
  altitude : Option ℤ
  speed : Option ℚ
  heading : Option ℚ
  squawk : Option Str
  timestamp : ℚ
deriving DecidableEq, Repr

/-- The feature built from one position dict (only called on dicts whose
coordinates are present, hence the `getD`). -/
def featureOf (p : PosDict) : Feature :=
  { lon := p.longitude.getD 0,
    lat := p.latitude.getD 0,
    icao := p.icao,
    callsign := p.callsign,
    altitude := p.altitude,
    speed := p.speed,
    heading := p.heading,
    squawk := p.squawk,
    timestamp := p.timestamp }

/-- The feature list `_export_geojson` writes: positions whose latitude
and longitude are truthy (`position['latitude'] and
position['longitude']` — so `None` and `0.0` are both excluded). -/
def export_geojson_features (positions : List PosDict) : List Feature :=
  (positions.filter (fun p => qTruthy p.latitude && qTruthy p.longitude)).map
    featureOf

/-- What the export writes: the content handed to the format-specific
writer.  The boolean in `export_data` is the Python return value; the
`Option` is `none` when no file is written. -/
inductive ExportOutput where
  | jsonOut (positions : List PosDict)
  | csvOut (positions : List PosDict)
  | geojsonOut (features : List Feature)
deriving DecidableEq, Repr

/-- Dispatch on the format, as in `export_data` lines 199-207:
`_export_json` always succeeds, `_export_csv` returns `False` on an
empty list before writing anything, `_export_geojson` always succeeds,
an unsupported format fails.  File-system errors are outside this pure
model. -/
def exportFormat (fmt : Fmt) (positions : List PosDict) :
    Bool × Option ExportOutput :=
  match fmt with
  | .json => (true, some (.jsonOut positions))
  | .csv =>
    if positions = [] then (false, none) else (true, some (.csvOut positions))
  | .geojson => (true, some (.geojsonOut (export_geojson_features positions)))
  | .other => (false, none)

/-- The geographic bounds filter of `export_data` lines 188-193:
truthy coordinates (`pos['latitude'] and pos['longitude']`) and
`south <= lat <= north and west <= lon <= east`. -/
def boundsKeep (s w n e : ℚ) (p : PosDict) : Bool :=
  qTruthy p.latitude && qTruthy p.longitude &&
    decide (s ≤ p.latitude.getD 0 ∧ p.latitude.getD 0 ≤ n ∧
      w ≤ p.longitude.getD 0 ∧ p.longitude.getD 0 ≤ e)

/-- Embedding of `FoilSkyBugs.export_data`.  The `bounds` argument
models the string `bounds`: `none` is a `None`/falsy bounds string and
`some parts` is `bounds.split(',')` with each comma-separated field
replaced by its `float(...)` outcome (`some q` on success, `none` for a
`ValueError`).  An empty query result returns `False` before anything
else; a 4-field bounds with a float failure raises `ValueError`, caught
as `False`; a bounds with any other number of fields is silently
ignored and the export proceeds unfiltered. -/
def export_data (db : List Row) (fmt : Fmt)
    (start_time end_time : Option ℚ)
    (bounds : Option (List (Option ℚ))) : Bool × Option ExportOutput :=
  let positions := get_aircraft_positions db none start_time end_time 10000
  if positions = [] then (false, none)
  else
    match bounds with
    | none => exportFormat fmt positions
    | some parts =>
      if parts.length = 4 then
        match parts with
        | [some s, some w, some n, some e] =>
          exportFormat fmt (positions.filter (boundsKeep s w n e))
        | _ => (false, none)
      else exportFormat fmt positions

/-- A one-position row with given coordinates and timestamp. -/
def rowAt (la lo ts : ℚ) : Row :=
  { icao := icaoABC, callsign := none, latitude := some la,
    longitude := some lo, altitude := none, speed := none, heading := none,
    vertical_rate := none, squawk := none, timestamp := ts }

/-- The stored positions of the concrete export scenario:
(42, -75) and (50, -75). -/
def dbTwoPoints : List Row := [rowAt 42 (-75) 10, rowAt 50 (-75) 5]

/-- A store holding a single position on the equator: (0, -75). -/
def dbZeroLat : List Row := [rowAt 0 (-75) 10]

example : normalize_icao (chars ['A', 'B', 'C', '1', '2', '3']) =
    chars ['A', 'B', 'C', '1', '2', '3'] := by decide

example : normalize_icao (chars ['A', '1']) =
    chars ['0', '0', '0', '0', 'A', '1'] := by decide

example : normalize_icao (chars [' ', ' ', 'a', 'b', 'c', '1', '2', '3', ' ']) =
    chars ['A', 'B', 'C', '1', '2', '3'] := by decide

example : normalize_icao (chars ['I', 'N', 'V', 'A', 'L', 'I', 'D']) = [] := by decide

example : normalize_icao (chars []) = [] := by decide

example : normalize_icao (chars ['+', '1', '2', '3', '4', 'A']) =
    chars ['+', '1', '2', '3', '4', 'A'] := by decide

example : normalize_icao (chars [' ', ' ', ' ']) =
    chars ['0', '0', '0', '0', '0', '0'] := by decide

/-! Auxiliary lemmas about the string model, used for the identifier
normalization theorems. -/

lemma dropWhile_all_false {α : Type} {p : α → Bool} :
    ∀ {l : List α}, (∀ a ∈ l, p a = false) → l.dropWhile p = l := by
  intro l h
  induction l with
  | nil => rfl
  | cons a t ih =>
    simp [List.dropWhile_cons, h a (List.mem_cons_self a t)]

lemma dropWhile_dropWhile {α : Type} {p : α → Bool} (l : List α) :
    List.dropWhile p (List.dropWhile p l) = List.dropWhile p l := by
  induction l with
  | nil => rfl
  | cons a t ih =>
    by_cases h : p a = true
    · simp [List.dropWhile_cons, h, ih]
    · simp [List.dropWhile_cons, h]

lemma pyStrip_of_no_space {l : Str} (h : ∀ n ∈ l, pyIsSpace n = false) :
    pyStrip l = l := by
  unfold pyStrip pyLStrip pyRStrip
  rw [dropWhile_all_false h,
    dropWhile_all_false (fun n hn => h n (List.mem_reverse.mp hn)),
    List.reverse_reverse]

lemma pyIsSpace_pyToUpper (n : ℕ) : pyIsSpace (pyToUpper n) = pyIsSpace n := by
  unfold pyToUpper pyIsSpace
  split
  · rw [decide_eq_decide]
    omega
  · rfl

lemma pyStrip_pyUpper (s : Str) : pyStrip (pyUpper s) = pyUpper (pyStrip s) := by
  have hp : (pyIsSpace ∘ pyToUpper) = pyIsSpace := funext pyIsSpace_pyToUpper
  unfold pyStrip pyLStrip pyRStrip pyUpper
  rw [List.dropWhile_map, hp, ← List.map_reverse, List.dropWhile_map, hp,
    ← List.map_reverse]

lemma pyRStrip_pyRStrip (l : Str) : pyRStrip (pyRStrip l) = pyRStrip l := by
  unfold pyRStrip
  rw [List.reverse_reverse, dropWhile_dropWhile]

lemma pyLStrip_shape (s : Str) :
    pyLStrip s = [] ∨ ∃ a t, pyLStrip s = a :: t ∧ pyIsSpace a = false := by
  induction s with
  | nil => exact Or.inl rfl
  | cons a t ih =>
    by_cases h : pyIsSpace a = true
    · simpa [pyLStrip, List.dropWhile_cons, h] using ih
    · refine Or.inr ⟨a, t, ?_, by simpa using h⟩
      simp [pyLStrip, List.dropWhile_cons, h]

lemma pyLStrip_pyRStrip_cons {a : ℕ} {t : Str} (ha : pyIsSpace a = false) :
    pyLStrip (pyRStrip (a :: t)) = pyRStrip (a :: t) := by
  unfold pyRStrip
  rw [show (a :: t).reverse = t.reverse ++ [a] by simp, List.dropWhile_append]
  by_cases h : (List.dropWhile pyIsSpace t.reverse).isEmpty = true
  · simp only [h, if_pos]
    simp [List.dropWhile_cons, ha, pyLStrip]
  · simp only [h, if_neg, Bool.false_eq_true, not_false_iff]
    rw [List.reverse_append]
    simp [pyLStrip, List.dropWhile_cons, ha]

lemma pyStrip_pyStrip (s : Str) : pyStrip (pyStrip s) = pyStrip s := by
  unfold pyStrip
  rcases pyLStrip_shape s with h | ⟨a, t, h, ha⟩
  · rw [h]
    rfl
  · rw [h, pyLStrip_pyRStrip_cons ha, pyRStrip_pyRStrip]

lemma pyToUpper_pyToUpper (n : ℕ) : pyToUpper (pyToUpper n) = pyToUpper n := by
  unfold pyToUpper
  split
  · rw [if_neg (by omega)]
  · rfl

lemma pyUpper_pyUpper (s : Str) : pyUpper (pyUpper s) = pyUpper s := by
  unfold pyUpper
  rw [List.map_map]
  exact List.map_congr_left fun n _ => pyToUpper_pyToUpper n

/-- A stripped-and-uppercased string is a fixed point of
strip-and-uppercase: the fact `validate_icao` needs about its re-stripping
of already-normalized input. -/
lemma strip_upper_fixed (s : Str) :
    pyUpper (pyStrip (pyUpper (pyStrip s))) = pyUpper (pyStrip s) := by
  rw [pyStrip_pyUpper, pyStrip_pyStrip, pyUpper_pyUpper]

lemma pyIsUpperHexDigit_not_space {n : ℕ} (h : pyIsUpperHexDigit n = true) :
    pyIsSpace n = false := by
  unfold pyIsUpperHexDigit at h
  unfold pyIsSpace
  simp only [Bool.or_eq_true, decide_eq_true_eq] at h
  simp only [decide_eq_false_iff_not]
  omega

lemma pyIsUpperHexDigit_hex {n : ℕ} (h : pyIsUpperHexDigit n = true) :
    pyIsHexDigit n = true := by
  unfold pyIsUpperHexDigit at h
  unfold pyIsHexDigit
  simp only [Bool.or_eq_true, decide_eq_true_eq] at h ⊢
  omega

lemma pyToUpper_of_upperHex {n : ℕ} (h : pyIsUpperHexDigit n = true) :
    pyToUpper n = n := by
  unfold pyIsUpperHexDigit at h
  unfold pyToUpper
  simp only [Bool.or_eq_true, decide_eq_true_eq] at h
  split <;> omega

lemma hexTail_all {l : Str} (h : ∀ n ∈ l, pyIsUpperHexDigit n = true) :
    hexTail l = true := by
  induction l with
  | nil => rfl
  | cons a t ih =>
    have ha := h a (List.mem_cons_self a t)
    have h95 : a ≠ 95 := by
      intro e
      rw [e] at ha
      simp [pyIsUpperHexDigit] at ha
    rw [hexTail.eq_def]
    simp only
    rw [if_neg h95, Bool.and_eq_true]
    exact ⟨pyIsUpperHexDigit_hex ha, ih fun n hn => h n (List.mem_cons_of_mem a hn)⟩

lemma hexBody_all {l : Str} (hne : l ≠ [])
    (h : ∀ n ∈ l, pyIsUpperHexDigit n = true) : hexBody l = true := by
  cases l with
  | nil => exact absurd rfl hne
  | cons a t =>
    rw [hexBody, Bool.and_eq_true]
    exact ⟨pyIsUpperHexDigit_hex (h a (List.mem_cons_self a t)),
      hexTail_all fun n hn => h n (List.mem_cons_of_mem a hn)⟩

lemma hexAfterSign_all {l : Str} (hne : l ≠ [])
    (h : ∀ n ∈ l, pyIsUpperHexDigit n = true) : hexAfterSign l = true := by
  match l with
  | [a] => exact hexBody_all hne h
  | a :: x :: rest =>
    have hx := h x (List.mem_cons_of_mem a (List.mem_cons_self x rest))
    have hcond : ¬(a = 48 ∧ (x = 120 ∨ x = 88)) := by
      unfold pyIsUpperHexDigit at hx
      simp only [Bool.or_eq_true, decide_eq_true_eq] at hx
      omega
    rw [hexAfterSign.eq_def]
    simp only
    rw [if_neg hcond]
    exact hexBody_all hne h

lemma pyIntHex16Ok_all {l : Str} (hne : l ≠ [])
    (h : ∀ n ∈ l, pyIsUpperHexDigit n = true) : pyIntHex16Ok l = true := by
  match l with
  | a :: rest =>
    have ha := h a (List.mem_cons_self a rest)
    have hcond : ¬(a = 43 ∨ a = 45) := by
      unfold pyIsUpperHexDigit at ha
      simp only [Bool.or_eq_true, decide_eq_true_eq] at ha
      omega
    rw [pyIntHex16Ok, if_neg hcond]
    exact hexAfterSign_all hne h

lemma pyUpper_of_upperHex {l : Str} (h : ∀ n ∈ l, pyIsUpperHexDigit n = true) :
    pyUpper l = l := by
  unfold pyUpper
  have h2 : ∀ n ∈ l, pyToUpper n = id n := fun n hn => pyToUpper_of_upperHex (h n hn)
  rw [List.map_congr_left h2, List.map_id]

lemma validate_pad {t : Str} (hne : t ≠ []) (hlen : t.length < 6)
    (h : ∀ n ∈ t, pyIsUpperHexDigit n = true) :
    validate_icao (some (List.replicate (6 - t.length) 48 ++ t)) = true := by
  have hall : ∀ n ∈ List.replicate (6 - t.length) 48 ++ t,
      pyIsUpperHexDigit n = true := by
    intro n hn
    rcases List.mem_append.mp hn with h1 | h2
    · rw [(List.mem_replicate.mp h1).2]
      decide
    · exact h n h2
  have hpadne : List.replicate (6 - t.length) 48 ++ t ≠ [] := by
    simp [hne]
  have hstrip := pyStrip_of_no_space
    (fun n hn => pyIsUpperHexDigit_not_space (hall n hn))
  have hupper := pyUpper_of_upperHex hall
  have hlen6 : (List.replicate (6 - t.length) 48 ++ t).length = 6 := by
    simp only [List.length_append, List.length_replicate]
    omega
  simp only [validate_icao, if_neg hpadne]
  rw [hstrip, hupper, if_pos hlen6]
  exact pyIntHex16Ok_all hpadne hall

/-- Result of `validate_icao` on an already stripped-and-uppercased
nonempty string. -/
lemma validate_fixed {s : Str} (hne : s ≠ []) (hfix : pyUpper (pyStrip s) = s) :
    validate_icao (some s) =
      (if s.length = 6 then pyIntHex16Ok s else false) := by
  simp only [validate_icao, if_neg hne]
  rw [hfix]

/-- Claim C1 as frozen is false on the code.  First conjunct: the empty
string has length less than 6, yet `normalize_icao` does not return a
6-character identifier for it (it returns the empty failure value).
Second conjunct: the input `+1234A` contains the non-hexadecimal
character `+` (code point 43), yet normalization does not fail — Python's
`int(s, 16)` accepts a leading sign, so `validate_icao` passes and the
value is returned as a "normalized" identifier. -/
theorem c1_counterexample :
    (([] : Str).length < 6 ∧ (normalize_icao []).length ≠ 6) ∧
    (Char.toNat '+' ∈ chars ['+', '1', '2', '3', '4', 'A'] ∧
      pyIsHexDigit (Char.toNat '+') = false ∧
      normalize_icao (chars ['+', '1', '2', '3', '4', 'A']) ≠ []) := by
  decide

/-- Claim C1 (amended): writing `t` for the stripped, uppercased input,
(1) the empty input fails (empty result); (2) when `t` is longer than 6
characters normalization fails; (3) when `t` is nonempty, shorter than 6
and consists only of (uppercase) hexadecimal digits, `normalize_icao`
returns `t` left-zero-padded to exactly 6 characters; (4) whenever
normalization does not fail, its result passes `validate_icao`, i.e. is a
6-character string accepted by Python's `int(·, 16)` parser (which also
admits a sign, inner underscores or a `0X` base marker, so a successful
result need not consist of hex digits only). -/
theorem c1_normalize_icao_amended (c : Str) :
    (c = [] → normalize_icao c = []) ∧
    ((pyUpper (pyStrip c)).length > 6 → normalize_icao c = []) ∧
    (pyUpper (pyStrip c) ≠ [] → (pyUpper (pyStrip c)).length < 6 →
      (∀ n ∈ pyUpper (pyStrip c), pyIsUpperHexDigit n = true) →
      normalize_icao c =
        List.replicate (6 - (pyUpper (pyStrip c)).length) 48 ++
          pyUpper (pyStrip c)) ∧
    (normalize_icao c ≠ [] → validate_icao (some (normalize_icao c)) = true) := by
  refine ⟨?_, ?_, ?_, ?_⟩
  · intro h
    rw [h]
    rfl
  · intro hlen
    have htne : pyUpper (pyStrip c) ≠ [] := by
      intro e
      rw [e] at hlen
      simp at hlen
    have hc : c ≠ [] := by
      intro e
      rw [e] at htne
      exact htne rfl
    have hpad : normalize_pad (pyUpper (pyStrip c)) = pyUpper (pyStrip c) := by
      unfold normalize_pad
      rw [if_neg]
      intro hand
      omega
    have hv : validate_icao (some (pyUpper (pyStrip c))) = false := by
      rw [validate_fixed htne (strip_upper_fixed c), if_neg (by omega)]
    unfold normalize_icao
    rw [if_neg hc, hpad, hv]
    simp
  · intro htne hlen hhex
    have hc : c ≠ [] := by
      intro e
      rw [e] at htne
      exact htne rfl
    have hvp := validate_pad htne hlen hhex
    have hpad : normalize_pad (pyUpper (pyStrip c)) =
        List.replicate (6 - (pyUpper (pyStrip c)).length) 48 ++
          pyUpper (pyStrip c) := by
      unfold normalize_pad
      rw [if_pos ⟨hlen, hvp⟩]
    unfold normalize_icao
    rw [if_neg hc, hpad, hvp]
    simp
  · intro hres
    unfold normalize_icao at hres ⊢
    by_cases hc : c = []
    · rw [if_pos hc] at hres
      exact absurd rfl hres
    · rw [if_neg hc] at hres ⊢
      by_cases hv : validate_icao (some (normalize_pad (pyUpper (pyStrip c)))) = true
      · rw [if_pos hv]
        exact hv
      · rw [if_neg hv] at hres
        exact absurd rfl hres

/-- Witness for the amended C1 at the concrete input `a1`: the padded
result `0000A1` is produced, via clause (3) of the theorem. -/
theorem c1_normalize_icao_amended_witness :
    normalize_icao (chars ['a', '1']) = chars ['0', '0', '0', '0', 'A', '1'] := by
  have h := (c1_normalize_icao_amended (chars ['a', '1'])).2.2.1
    (by decide) (by decide) (by decide)
  exact h.trans (by decide)

/-- Spelled-out validity of an `Aircraft` position: `is_valid` holds iff
both coordinates are present and within the geodetic ranges. -/
lemma is_valid_spec (a : Aircraft) :
    a.is_valid = true ↔
      ((∃ la, a.latitude = some la ∧ -90 ≤ la ∧ la ≤ 90) ∧
        (∃ lo, a.longitude = some lo ∧ -180 ≤ lo ∧ lo ≤ 180)) := by
  unfold Aircraft.is_valid
  rcases ha : a.latitude with _ | la <;> rcases hb : a.longitude with _ | lo <;>
    simp [ha, hb]
  tauto

/-- Claim C2 as frozen is false on the code: a report whose latitude is
out of range (and longitude valid), and a report with only one
coordinate, are not kept with an absent position — `process_dump1090_json`
drops them entirely: nothing is returned and nothing is cached. -/
theorem c2_counterexample :
    process_dump1090_json [recBadLat, recHalfPos] [] 0 = ([], []) := by
  decide

/-- Claim C2 (amended): a raw report whose position is missing, half
present, or out of range is rejected outright by `process_dump1090_json`
(dropped from the returned list), not kept with an absent position;
consequently every returned aircraft has both coordinates present and in
range. -/
theorem c2_position_amended (recs : List RawAC)
    (cache : List (Str × Aircraft)) (now : ℚ) :
    ∀ a ∈ (process_dump1090_json recs cache now).1,
      (∃ la, a.latitude = some la ∧ -90 ≤ la ∧ la ≤ 90) ∧
      (∃ lo, a.longitude = some lo ∧ -180 ≤ lo ∧ lo ≤ 180) := by
  induction recs generalizing cache with
  | nil =>
    intro a ha
    simp [process_dump1090_json] at ha
  | cons r rs ih =>
    intro a ha
    rcases hh : r.hex with _ | h
    · simp only [process_dump1090_json, hh] at ha
      exact ih cache a ha
    · simp only [process_dump1090_json, hh] at ha
      by_cases he : h = []
      · rw [if_pos he] at ha
        exact ih cache a ha
      · rw [if_neg he] at ha
        by_cases hv : (mkDumpAircraft h r now).is_valid = true
        · rw [if_pos hv] at ha
          simp only [List.mem_cons] at ha
          rcases ha with rfl | ha
          · exact (is_valid_spec _).mp hv
          · exact ih _ a ha
        · rw [if_neg hv] at ha
          exact ih cache a ha

/-- Witness for the amended C2: the valid report built from `recGoodPos`
is returned by `process_dump1090_json`, and the theorem yields its
in-range coordinates. -/
theorem c2_position_amended_witness :
    (∃ la, (mkDumpAircraft (chars ['a', 'b', 'c', '1', '2', '3'])
        recGoodPos 0).latitude = some la ∧ -90 ≤ la ∧ la ≤ 90) ∧
    (∃ lo, (mkDumpAircraft (chars ['a', 'b', 'c', '1', '2', '3'])
        recGoodPos 0).longitude = some lo ∧ -180 ≤ lo ∧ lo ≤ 180) :=
  c2_position_amended [recGoodPos] [] 0 _ (by decide)

/-- Claim C4 as frozen is false on the code: with `max_age = 0` at
`now = 0`, an entry whose `last_seen` equals `now` (age exactly 0, not
strictly greater) survives, so the table is not emptied.  Moreover the
Python function returns `None`, not the number of entries removed. -/
theorem c4_counterexample :
    cleanup_old_aircraft cacheSeenAt0 0 0 = cacheSeenAt0 ∧
      cacheSeenAt0 ≠ [] := by
  constructor
  · simp [cleanup_old_aircraft, cacheSeenAt0, acSeenAt0]
  · decide


/-- Membership in the cleaned cache: an entry survives iff it was present
and, when it has a timestamp, its age does not strictly exceed the
limit. -/
lemma mem_cleanup_old_aircraft (cache : List (Str × Aircraft))
    (m : WithTop ℚ) (now : ℚ) (k : Str) (a : Aircraft) :
    (k, a) ∈ cleanup_old_aircraft cache m now ↔
      (k, a) ∈ cache ∧
        ∀ ts, a.timestamp = some ts → ((now - ts : ℚ) : WithTop ℚ) ≤ m := by
  rw [cleanup_old_aircraft, List.mem_filter]
  refine and_congr_right fun _ => ?_
  rcases ht : a.timestamp with _ | ts
  · simp [ht]
  · simp only [ht, decide_eq_true_eq, not_lt, Option.some.injEq]
    constructor
    · intro hle ts2 hts2
      rw [← hts2]
      exact hle
    · intro hall
      exact hall ts rfl

/-- Claim C4 (amended): `cleanup_old_aircraft` removes exactly the
entries with a timestamp whose age `now - last_seen` strictly exceeds
`max_age` (entries without a timestamp are never removed), and it
returns no count.  With `max_age = ⊤` (Python `float(inf)`) it is a
no-op; with `max_age = 0` an entry with timestamp `ts` survives iff
`now ≤ ts`, so entries seen exactly at `now` are kept and the table is
not necessarily emptied. -/
theorem c4_cleanup_amended (cache : List (Str × Aircraft))
    (m : WithTop ℚ) (now : ℚ) :
    (m = ⊤ → cleanup_old_aircraft cache m now = cache) ∧
    (∀ k a, (k, a) ∈ cleanup_old_aircraft cache m now ↔
      (k, a) ∈ cache ∧
        ∀ ts, a.timestamp = some ts → ((now - ts : ℚ) : WithTop ℚ) ≤ m) ∧
    (∀ k a ts, (k, a) ∈ cache → a.timestamp = some ts →
      ((k, a) ∈ cleanup_old_aircraft cache 0 now ↔ now ≤ ts)) := by
  refine ⟨?_, fun k a => mem_cleanup_old_aircraft cache m now k a, ?_⟩
  · intro hm
    subst hm
    apply List.filter_eq_self.mpr
    intro p _
    rcases ht : p.2.timestamp with _ | ts
    · simp [ht]
    · simp [ht, not_top_lt]
  · intro k a ts hmem hts
    rw [mem_cleanup_old_aircraft]
    constructor
    · intro hin
      have hle := hin.2 ts hts
      rw [← WithTop.coe_zero, WithTop.coe_le_coe] at hle
      linarith
    · intro hle
      refine ⟨hmem, ?_⟩
      intro ts2 hts2
      rw [hts] at hts2
      cases hts2
      rw [← WithTop.coe_zero, WithTop.coe_le_coe]
      linarith

/-- Witness for the amended C4 at a concrete input: in a cache whose
single entry was last seen at time 0, evicting with `max_age = 0` at
`now = 5` removes the entry (its age 5 strictly exceeds 0). -/
theorem c4_cleanup_amended_witness :
    ((icaoABC, acSeenAt0) ∈ cleanup_old_aircraft cacheSeenAt0 0 5 ↔
      (5 : ℚ) ≤ 0) := by
  have h := (c4_cleanup_amended cacheSeenAt0 0 5).2.2 icaoABC acSeenAt0 0
    (by decide) (by decide)
  exact h

lemma mem_insertDesc {r y : Row} : ∀ {l : List Row},
    (y ∈ insertDesc r l ↔ y = r ∨ y ∈ l) := by
  intro l
  induction l with
  | nil => simp [insertDesc]
  | cons x xs ih =>
    rw [insertDesc]
    by_cases h : x.timestamp ≤ r.timestamp
    · rw [if_pos h]
      simp
    · rw [if_neg h]
      simp only [List.mem_cons, ih]
      tauto

lemma mem_sortDesc {y : Row} : ∀ {l : List Row}, (y ∈ sortDesc l ↔ y ∈ l) := by
  intro l
  induction l with
  | nil => simp [sortDesc]
  | cons x xs ih =>
    rw [sortDesc, mem_insertDesc]
    simp [ih]

lemma length_insertDesc (r : Row) : ∀ (l : List Row),
    (insertDesc r l).length = l.length + 1 := by
  intro l
  induction l with
  | nil => rfl
  | cons x xs ih =>
    rw [insertDesc]
    by_cases h : x.timestamp ≤ r.timestamp
    · rw [if_pos h]
      simp
    · rw [if_neg h]
      simp [ih]

lemma length_sortDesc : ∀ (l : List Row), (sortDesc l).length = l.length := by
  intro l
  induction l with
  | nil => rfl
  | cons x xs ih =>
    rw [sortDesc, length_insertDesc, ih]
    rfl

/-- Claim C9: every report persisted by the batch write (`write_batch` =
`store_aircraft_positions`) and read back through
`get_aircraft_positions` with no filters comes back with identical
values in every field — icao, callsign, latitude, longitude, altitude,
speed, heading, vertical_rate, squawk — and with its stored timestamp
(serialization being the identity in this model).  The `limit` cap must
cover the table, which is what "no filters" demands of the caller. -/
theorem c9_round_trip (db : List Row) (batch : List Aircraft) (now : ℚ)
    (limit : ℕ) (hlimit : db.length + batch.length ≤ limit) :
    ∀ a ∈ batch, a.is_valid = true →
      ∃ d ∈ get_aircraft_positions
          (store_aircraft_positions db batch now).2 none none none limit,
        d.icao = a.icao ∧ d.callsign = a.callsign ∧
        d.latitude = a.latitude ∧ d.longitude = a.longitude ∧
        d.altitude = a.altitude ∧ d.speed = a.speed ∧
        d.heading = a.heading ∧ d.vertical_rate = a.vertical_rate ∧
        d.squawk = a.squawk ∧ d.timestamp = a.timestamp.getD now := by
  intro a ha hv
  have hmemrow : a.toRow now ∈ (store_aircraft_positions db batch now).2 := by
    rw [store_aircraft_positions]
    refine List.mem_append.mpr (Or.inr ?_)
    exact List.mem_map.mpr ⟨a, List.mem_filter.mpr ⟨ha, hv⟩, rfl⟩
  have hlen : ((store_aircraft_positions db batch now).2).length ≤ limit := by
    rw [store_aircraft_positions]
    simp only [List.length_append, List.length_map]
    have := List.length_filter_le (fun a => a.is_valid) batch
    omega
  refine ⟨rowToDict (a.toRow now), ?_, rfl, rfl, rfl, rfl, rfl, rfl, rfl, rfl,
    rfl, rfl⟩
  simp only [get_aircraft_positions]
  rw [List.take_of_length_le (by rw [length_sortDesc]; exact hlen)]
  exact List.mem_map.mpr ⟨a.toRow now, mem_sortDesc.mpr hmemrow, rfl⟩

/-- Witness for C9 at a concrete input: writing `acFull` into an empty
store and reading back with no filters returns a dict carrying exactly
its field values. -/
theorem c9_round_trip_witness :
    ∃ d ∈ get_aircraft_positions
        (store_aircraft_positions [] [acFull] 0).2 none none none 5,
      d.icao = acFull.icao ∧ d.callsign = acFull.callsign ∧
      d.latitude = acFull.latitude ∧ d.longitude = acFull.longitude ∧
      d.altitude = acFull.altitude ∧ d.speed = acFull.speed ∧
      d.heading = acFull.heading ∧ d.vertical_rate = acFull.vertical_rate ∧
      d.squawk = acFull.squawk ∧ d.timestamp = acFull.timestamp.getD 0 :=
  c9_round_trip [] [acFull] 0 5 (by decide) acFull (by decide) (by decide)

/-- Claim C10: every row the batch write adds to the positions table has
both coordinates present and within range; a report lacking a valid
position is silently skipped and never reaches the table. -/
theorem c10_stored_rows_valid (db : List Row) (batch : List Aircraft)
    (now : ℚ) :
    ∀ r ∈ (store_aircraft_positions db batch now).2,
      r ∈ db ∨
        ((∃ la, r.latitude = some la ∧ -90 ≤ la ∧ la ≤ 90) ∧
          (∃ lo, r.longitude = some lo ∧ -180 ≤ lo ∧ lo ≤ 180)) := by
  intro r hr
  rw [store_aircraft_positions] at hr
  rcases List.mem_append.mp hr with h | h
  · exact Or.inl h
  · refine Or.inr ?_
    rcases List.mem_map.mp h with ⟨a, hmem, rfl⟩
    have hv := (List.mem_filter.mp hmem).2
    exact (is_valid_spec a).mp hv

/-- Witness for C10 at a concrete input: the single row written for
`acFull` into an empty table carries an in-range position. -/
theorem c10_stored_rows_valid_witness :
    (∃ la, (acFull.toRow 0).latitude = some la ∧ -90 ≤ la ∧ la ≤ 90) ∧
    (∃ lo, (acFull.toRow 0).longitude = some lo ∧ -180 ≤ lo ∧ lo ≤ 180) :=
  (c10_stored_rows_valid [] [acFull] 0 (acFull.toRow 0)
    (by decide)).resolve_left (by simp)

/-- Claim C5 as frozen is false on the code for an empty underlying set:
with no position rows for the day, `update_statistics` reports success
and writes nothing, so after two runs there are zero `DailyStatistics`
rows for the day, not exactly one. -/
theorem c5_counterexample :
    update_statistics [] [] 0 = (true, []) ∧
      ((update_statistics [] (update_statistics [] [] 0).2 0).2.countP
        (statInDay 0)) = 0 := by
  decide

lemma filter_not_filter {α : Type} (p : α → Bool) (l : List α) :
    List.filter p (List.filter (fun x => ! p x) l) = [] := by
  rw [List.filter_filter]
  have h : ∀ x : α, (p x && ! p x) = false := fun x => by
    cases hp : p x <;> simp
  simp only [h]
  exact List.filter_false l

/-- One run with a nonempty day leaves exactly `[dailyRow today d]` as
the day's statistics rows, whatever was there before. -/
lemma update_statistics_day_rows (positions : List Row)
    (stats : List StatRow) (startOfDay : ℚ)
    (hne : positions.filter (posInDay startOfDay) ≠ []) :
    (update_statistics positions stats startOfDay).2.filter
        (statInDay startOfDay) =
      [dailyRow (positions.filter (posInDay startOfDay)) startOfDay] := by
  rw [update_statistics]
  simp only [if_neg hne]
  rw [List.filter_append, filter_not_filter]
  have hday : statInDay startOfDay
      (dailyRow (positions.filter (posInDay startOfDay)) startOfDay) = true := by
    rw [statInDay, dailyRow]
    simp only [decide_eq_true_eq]
    constructor
    · exact le_refl _
    · linarith
  simp [hday]

/-- Claim C5 (amended): for every fixed nonempty set of position rows in
a UTC day window, running the statistics aggregator twice for that day
leaves exactly one `DailyStatistics` row for the day — the same fully
recomputed row after each run (delete-then-insert replace semantics).
If the day has no position rows, the run writes nothing at all (claim C5
fails there: no row is produced, see the counterexample). -/
theorem c5_stats_idempotent (positions : List Row) (stats : List StatRow)
    (startOfDay : ℚ)
    (hne : positions.filter (posInDay startOfDay) ≠ []) :
    ∃ row : StatRow,
      (update_statistics positions stats startOfDay).2.filter
          (statInDay startOfDay) = [row] ∧
      (update_statistics positions
          (update_statistics positions stats startOfDay).2
          startOfDay).2.filter (statInDay startOfDay) = [row] := by
  exact ⟨dailyRow (positions.filter (posInDay startOfDay)) startOfDay,
    update_statistics_day_rows positions stats startOfDay hne,
    update_statistics_day_rows positions _ startOfDay hne⟩

/-- Witness for the amended C5 at a concrete input: one position row at
time 100 in the day starting at 0. -/
theorem c5_stats_idempotent_witness :
    ∃ row : StatRow,
      (update_statistics [acFull.toRow 0] [] 0).2.filter (statInDay 0) =
        [row] ∧
      (update_statistics [acFull.toRow 0]
          (update_statistics [acFull.toRow 0] [] 0).2 0).2.filter
        (statInDay 0) = [row] :=
  c5_stats_idempotent [acFull.toRow 0] [] 0
    (by norm_num [List.filter, posInDay, Aircraft.toRow, acFull])

/-- Claim C8: `start` in the Running state is a no-op reporting `False`
and stays Running; `start` in the Stopped state reports `True` and moves
to Running; `stop` after `stop` is safe — the second call is a no-op on
the Stopped state reporting "already stopped" (`False`), leaving the
state unchanged. -/
theorem c8_start_stop :
    fsb_start { running := true } = (false, { running := true }) ∧
    fsb_start { running := false } = (true, { running := true }) ∧
    fsb_stop { running := true } = (true, { running := false }) ∧
    fsb_stop (fsb_stop { running := true }).2 =
      (false, (fsb_stop { running := true }).2) := by
  decide

/-- Claim C3 as frozen is false on the code: the position (0, -75) lies
inside the bounds (south, west, north, east) = (-10, -80, 10, -70), yet
the geojson export over it contains no feature — the bounds filter
tests `pos['latitude'] and ...`, and latitude `0.0` is falsy in Python,
so equator (and prime-meridian) positions are dropped regardless of the
requested bounds. -/
theorem c3_counterexample :
    ((-10 : ℚ) ≤ 0 ∧ (0 : ℚ) ≤ 10 ∧ (-80 : ℚ) ≤ -75 ∧ (-75 : ℚ) ≤ -70) ∧
    export_data dbZeroLat .geojson none none
        (some [some (-10), some (-80), some 10, some (-70)]) =
      (true, some (.geojsonOut [])) := by
  constructor
  · norm_num
  · decide

lemma boundsKeep_truthy {s w n e : ℚ} {p : PosDict}
    (h : boundsKeep s w n e p = true) :
    (qTruthy p.latitude && qTruthy p.longitude) = true := by
  rw [boundsKeep, Bool.and_eq_true, Bool.and_eq_true] at h
  rw [Bool.and_eq_true]
  exact h.1

/-- Claim C3 (amended): a geojson export with well-formed bounds
`(south, west, north, east)` over a nonempty query result writes exactly
the features of the positions selected by the bounds filter, and that
filter keeps a position iff its latitude and longitude are present AND
nonzero AND `south ≤ lat ≤ north` and `west ≤ lon ≤ east` — the
Python truthiness test excludes coordinates equal to 0 regardless of the
bounds.  On the concrete scenario — bounds `(40, -80, 45, -70)` over the
stored positions (42, -75) and (50, -75) — exactly one feature is
written, the first point. -/
theorem c3_bounds_amended :
    (∀ (db : List Row) (s w n e : ℚ) (st en : Option ℚ),
      get_aircraft_positions db none st en 10000 ≠ [] →
      export_data db .geojson st en (some [some s, some w, some n, some e]) =
        (true, some (.geojsonOut
          (((get_aircraft_positions db none st en 10000).filter
            (boundsKeep s w n e)).map featureOf)))) ∧
    (∀ (s w n e : ℚ) (p : PosDict),
      boundsKeep s w n e p = true ↔
        ∃ la lo, p.latitude = some la ∧ p.longitude = some lo ∧
          la ≠ 0 ∧ lo ≠ 0 ∧ s ≤ la ∧ la ≤ n ∧ w ≤ lo ∧ lo ≤ e) ∧
    export_data dbTwoPoints .geojson none none
        (some [some 40, some (-80), some 45, some (-70)]) =
      (true, some (.geojsonOut [featureOf (rowToDict (rowAt 42 (-75) 10))])) := by
  refine ⟨?_, ?_, by decide⟩
  · intro db s w n e st en hne
    simp only [export_data, if_neg hne]
    rw [if_pos (show ([some s, some w, some n, some e] :
      List (Option ℚ)).length = 4 by norm_num)]
    simp only [exportFormat, export_geojson_features]
    rw [List.filter_eq_self.mpr
      (fun p hp => boundsKeep_truthy (List.mem_filter.mp hp).2)]
  · intro s w n e p
    rcases hla : p.latitude with _ | la <;> rcases hlo : p.longitude with _ | lo <;>
      simp [boundsKeep, qTruthy, hla, hlo]
    tauto

/-- Witness for the amended C3: on the two-point store the bounds export
equals the geojson of the bounds-filtered query result. -/
theorem c3_bounds_amended_witness :
    export_data dbTwoPoints .geojson none none
        (some [some 40, some (-80), some 45, some (-70)]) =
      (true, some (.geojsonOut
        (((get_aircraft_positions dbTwoPoints none none none 10000).filter
          (boundsKeep 40 (-80) 45 (-70))).map featureOf))) :=
  c3_bounds_amended.1 dbTwoPoints 40 (-80) 45 (-70) none none (by decide)

/-- Claim C6 as frozen is false on the code: an export over an empty
store (zero matching rows, nothing wrong) returns exactly the same value
`False` (and writes nothing) as an export that genuinely fails on
malformed four-field bounds — the two outcomes are not distinguishable
by the caller. -/
theorem c6_counterexample :
    export_data [] .json none none none = (false, none) ∧
    export_data dbTwoPoints .json none none
        (some [some 1, some 2, some 3, none]) = (false, none) := by
  decide

/-- Claim C6 (amended): `export_data` returns the bare failure value
`False` (writing nothing) whenever the query matches zero rows — for
every format, time range and bounds — which is exactly the value it
returns on a failed operation (for instance four-field bounds whose last
field does not parse as a float), so callers cannot distinguish
"legitimately no data" from "operation failed". -/
theorem c6_empty_indistinct_from_failure :
    (∀ (fmt : Fmt) (st en : Option ℚ) (b : Option (List (Option ℚ))),
      export_data [] fmt st en b = (false, none)) ∧
    (∀ (db : List Row) (fmt : Fmt) (st en : Option ℚ) (s w n : ℚ),
      export_data db fmt st en (some [some s, some w, some n, none]) =
        (false, none)) := by
  constructor
  · intro fmt st en b
    have hpos : get_aircraft_positions [] none st en 10000 = [] := by
      rcases st with _ | t1 <;> rcases en with _ | t2 <;>
        simp [get_aircraft_positions, sortDesc]
    simp only [export_data, hpos]
    rfl
  · intro db fmt st en s w n
    simp only [export_data]
    by_cases hpos : get_aircraft_positions db none st en 10000 = []
    · rw [if_pos hpos]
    · rw [if_neg hpos]
      rw [if_pos (show ([some s, some w, some n, none] :
        List (Option ℚ)).length = 4 by norm_num)]

/-- Claim C7 as frozen is false on the code: the bounds string
`40,-80,45` is malformed (three fields, not four numbers), yet the
export does not fail — it silently ignores the bounds and exports the
unfiltered data, here both stored points. -/
theorem c7_counterexample :
    export_data dbTwoPoints .geojson none none
        (some [some 40, some (-80), some 45]) =
      (true, some (.geojsonOut
        [featureOf (rowToDict (rowAt 42 (-75) 10)),
          featureOf (rowToDict (rowAt 50 (-75) 5))])) := by
  decide

/-- Claim C7 (amended): only a bounds string that splits into exactly
four fields of which one fails to parse as a float makes the export call
fail (returning `False`, affecting that call only); a bounds string with
any other number of fields is silently ignored — the export behaves
exactly as if no bounds had been given and returns unfiltered data. -/
theorem c7_bounds_arity (db : List Row) (fmt : Fmt) (st en : Option ℚ) :
    (∀ parts : List (Option ℚ), parts.length ≠ 4 →
      export_data db fmt st en (some parts) =
        export_data db fmt st en none) ∧
    (∀ s w n : ℚ,
      export_data db fmt st en (some [some s, some w, some n, none]) =
        (false, none)) := by
  constructor
  · intro parts hlen
    simp only [export_data]
    by_cases hpos : get_aircraft_positions db none st en 10000 = []
    · rw [if_pos hpos, if_pos hpos]
    · rw [if_neg hpos, if_neg hpos]
      simp only [if_neg hlen]
  · intro s w n
    simp only [export_data]
    by_cases hpos : get_aircraft_positions db none st en 10000 = []
    · rw [if_pos hpos]
    · rw [if_neg hpos]
      rw [if_pos (show ([some s, some w, some n, none] :
        List (Option ℚ)).length = 4 by norm_num)]

/-- Witness for the amended C7: the three-field bounds export on the
two-point store equals the boundless export. -/
theorem c7_bounds_arity_witness :
    export_data dbTwoPoints .geojson none none
        (some [some 40, some (-80), some 45]) =
      export_data dbTwoPoints .geojson none none none :=
  (c7_bounds_arity dbTwoPoints .geojson none none).1
    [some 40, some (-80), some 45] (by decide)

